import Mathlib

set_option maxRecDepth 2048

/-!
Shallow embedding of the x86-64 dynarec core skeleton of pcsx-redux
(`src/core/DynaRec_x64/recompiler.h`, class `DynaRecCPU`): the per-block
register records with constant propagation, the delayed-load bookkeeping,
the block-cache lookup table built by `Init`, the `Clear` entry point and
the block-size cap.  Machine integers are modelled as `Nat`; no arithmetic
here can overflow 32 bits (values coming from `uint32_t` are carried
unchanged).  Pointers into the two backing arrays are modelled as pairs
(which array, entry offset).
-/

namespace DynaRec

/-- The constant-propagation state tag of a per-block register record
(`enum class RegState { Unknown, Constant }`). -/
inductive RegState
| Unknown
| Constant
deriving DecidableEq, BEq

/-- One per-block register record (`struct Register`).  `allocatedReg`
(the Xbyak host register id) is carried as an opaque `Nat`. -/
structure Register where
  val : Nat := 0
  state : RegState := RegState.Unknown
  isAllocated : Bool := false
  writeback : Bool := false
  allocatedReg : Nat := 0
deriving DecidableEq

/-- `bool isConst() { return state == RegState::Constant; }` -/
def Register.isConst (r : Register) : Bool := r.state == RegState.Constant

/-- `void unallocate() { isAllocated = false; writeback = false; }` -/
def Register.unallocate (r : Register) : Register :=
  { r with isAllocated := false, writeback := false }

/-- `void markConst(uint32_t value) { val = value; state = Constant; unallocate(); }` -/
def Register.markConst (r : Register) (value : Nat) : Register :=
  ({ r with val := value, state := RegState.Constant } : Register).unallocate

/-- `void markUnknown() { state = RegState::Unknown; }` -/
def Register.markUnknown (r : Register) : Register :=
  { r with state := RegState.Unknown }

/-- `void setWriteback(bool wb) { writeback = wb; }` -/
def Register.setWriteback (r : Register) (wb : Bool) : Register :=
  { r with writeback := wb }

/-- One delayed-load slot of the CPU core (`m_delayedLoadInfo[i]`): target
register index, pending value and the active flag. -/
structure DelayedLoadInfo where
  index : Nat
  value : Nat
  active : Bool
deriving DecidableEq

/-- The delayed-load state the recompiler header manipulates: the two slots
and the parity bit `m_currentDelayedLoad`. -/
structure DelayState where
  delayedLoadInfo0 : DelayedLoadInfo
  delayedLoadInfo1 : DelayedLoadInfo
  currentDelayedLoad : Nat
deriving DecidableEq

/-- Read `m_delayedLoadInfo[i]` for `i` in `{0, 1}`. -/
def DelayState.slot (s : DelayState) (i : Nat) : DelayedLoadInfo :=
  if i = 0 then s.delayedLoadInfo0 else s.delayedLoadInfo1

/-- Write `m_delayedLoadInfo[i]` for `i` in `{0, 1}`. -/
def DelayState.setSlot (s : DelayState) (i : Nat) (d : DelayedLoadInfo) : DelayState :=
  if i = 0 then { s with delayedLoadInfo0 := d } else { s with delayedLoadInfo1 := d }

/-- `maybeCancelDelayedLoad(index)`: the other slot (`m_currentDelayedLoad ^ 1`)
is deactivated when its target register matches `index`. -/
def maybeCancelDelayedLoad (s : DelayState) (index : Nat) : DelayState :=
  let other := s.currentDelayedLoad ^^^ 1
  if (s.slot other).index = index then
    s.setSlot other { s.slot other with active := false }
  else s

/-- Modelled from the spec: issuing a delayed load is done by the CPU core and
the instruction handlers, which are not part of this header.  Per the spec, a
slot records target register index, pending value and an active flag, and a
newly issued load occupies the current slot after the cancel check of
`maybeCancelDelayedLoad` has run. -/
def issueDelayedLoad (s : DelayState) (index value : Nat) : DelayState :=
  let s1 := maybeCancelDelayedLoad s index
  s1.setSlot s1.currentDelayedLoad { index := index, value := value, active := true }

/-- The two slots never both hold a pending load to the same register. -/
def noDupPending (s : DelayState) : Prop :=
  ¬(s.delayedLoadInfo0.active = true ∧ s.delayedLoadInfo1.active = true ∧
    s.delayedLoadInfo0.index = s.delayedLoadInfo1.index)

/-- Which backing array a recompiler-LUT entry points into
(`m_ramBlocks` or `m_biosBlocks`). -/
inductive BlockArray
| ram
| bios
deriving DecidableEq

/-- A non-null entry of `m_recompilerLUT`: a pointer to entry `offset`
(counted in `DynarecCallback` entries) of one of the two backing arrays. -/
structure LUTPointer where
  region : BlockArray
  offset : Nat
deriving DecidableEq

/-- `m_ramSize = ramExpansion ? 0x800000 : 0x200000;` -/
def ramSize (ramExpansion : Bool) : Nat :=
  if ramExpansion then 0x800000 else 0x200000

/-- `const auto biosSize = 0x80000;` -/
def biosSize : Nat := 0x80000

/-- `const auto ramPages = m_ramSize >> 16;` -/
def ramPages (ramExpansion : Bool) : Nat := ramSize ramExpansion >>> 16

/-- Number of entries of `m_ramBlocks`: `new DynarecCallback[m_ramSize / 4]()`. -/
def ramBlockCount (ramExpansion : Bool) : Nat := ramSize ramExpansion / 4

/-- Number of entries of `m_biosBlocks`: `new DynarecCallback[biosSize / 4]()`. -/
def biosBlockCount : Nat := biosSize / 4

/-- A single store `m_recompilerLUT[i] = p`, over the LUT modelled as a map
from page index to its entry (`none` = null pointer). -/
def lutWrite (lut : Nat → Option LUTPointer) (i : Nat) (p : LUTPointer) :
    Nat → Option LUTPointer :=
  fun j => if j = i then some p else lut j

/-- The first `Init` loop after `n` iterations: for each `page < n`,
`pointer = &m_ramBlocks[page << 16]` is stored at LUT slots `page + 0x0000`,
`page + 0x8000` and `page + 0xA000` in that order. -/
def mapRamLoop (lut0 : Nat → Option LUTPointer) : Nat → Nat → Option LUTPointer
| 0 => lut0
| n + 1 =>
  let lut := mapRamLoop lut0 n
  let pointer : LUTPointer := ⟨BlockArray.ram, n <<< 16⟩
  lutWrite (lutWrite (lutWrite lut (n + 0x0000) pointer) (n + 0x8000) pointer)
    (n + 0xA000) pointer

/-- The second `Init` loop after `n` iterations: for each `page < n`,
`pointer = &m_biosBlocks[page << 16]` is stored at LUT slots `page + 0x1FC0`,
`page + 0x9FC0` and `page + 0xBFC0` in that order. -/
def mapBiosLoop (lut0 : Nat → Option LUTPointer) : Nat → Nat → Option LUTPointer
| 0 => lut0
| n + 1 =>
  let lut := mapBiosLoop lut0 n
  let pointer : LUTPointer := ⟨BlockArray.bios, n <<< 16⟩
  lutWrite (lutWrite (lutWrite lut (n + 0x1FC0) pointer) (n + 0x9FC0) pointer)
    (n + 0xBFC0) pointer

/-- The contents of `m_recompilerLUT` after `Init`: the LUT starts out all
null (`new DynarecCallback*[0x10000]()` value-initializes), the RAM loop runs
for `ramPages` iterations, then the BIOS loop runs for 8 iterations. -/
def initLUT (ramExpansion : Bool) : Nat → Option LUTPointer :=
  mapBiosLoop (mapRamLoop (fun _ => none) (ramPages ramExpansion)) 8

/-- The contents of `m_recompilerLUT` after `Reset`: `Reset` calls
`Shutdown()` (freeing all three structures) and then `Init()` again, so the
post-`Reset` LUT is the post-`Init` LUT. -/
def resetLUT (ramExpansion : Bool) : Nat → Option LUTPointer :=
  initLUT ramExpansion

/-- `inline bool isPcValid(uint32_t addr) { return m_recompilerLUT[addr >> 16] != nullptr; }`
evaluated over the post-`Init` LUT. -/
def isPcValid (ramExpansion : Bool) (addr : Nat) : Bool :=
  (initLUT ramExpansion (addr >>> 16)).isSome

/-- Observable behavior of `Clear(Addr, Size)`: whether the diagnostic was
printed and whether `abort()` was reached (terminating the process). -/
structure ClearResult where
  printedCantClear : Bool
  abortsProcess : Bool
deriving DecidableEq

/-- `virtual void Clear(uint32_t Addr, uint32_t Size) final
\x7b fmt::print("..."); abort(); \x7d` — unconditionally prints and aborts,
independent of both arguments. -/
def Clear (_Addr _Size : Nat) : ClearResult :=
  { printedCantClear := true, abortsProcess := true }

/-- Observable record of one run of `Init()`.  The four `*Ok` inputs of
`InitModel` say whether each of the four allocations (`m_recompilerLUT`,
`m_ramBlocks`, `m_biosBlocks`, the emitter code buffer read through
`gen.getCode()`) came back non-null. -/
structure InitResult where
  ret : Bool
  messagePosted : Bool
  ramSizeSet : Nat
  ramBlocksLen : Nat
  biosBlocksLen : Nat
  lutLen : Nat
  ramPagesMapped : Nat
  lutWritesDone : Nat
  emitterWasReset : Bool
deriving DecidableEq

/-- `Init()` step by step: `m_ramSize` is set from the 8MB setting, the three
arrays are allocated, BOTH mapping loops run (3 LUT stores per RAM page plus
3 per BIOS page), and only then are the four pointers checked against null:
on any null, `g_system->message("[Dynarec] Error allocating memory")` is
posted and `false` is returned without `gen.reset()`; otherwise `gen.reset()`
runs and `true` is returned.  The null check order in the source is
`m_ramBlocks || m_biosBlocks || gen.getCode() || m_recompilerLUT`. -/
def InitModel (ramExpansion lutOk ramOk biosOk genOk : Bool) : InitResult :=
  let pages := ramPages ramExpansion
  let writes := 3 * pages + 3 * 8
  if !ramOk || !biosOk || !genOk || !lutOk then
    { ret := false, messagePosted := true, ramSizeSet := ramSize ramExpansion,
      ramBlocksLen := ramBlockCount ramExpansion, biosBlocksLen := biosBlockCount,
      lutLen := 0x10000, ramPagesMapped := pages, lutWritesDone := writes,
      emitterWasReset := false }
  else
    { ret := true, messagePosted := false, ramSizeSet := ramSize ramExpansion,
      ramBlocksLen := ramBlockCount ramExpansion, biosBlocksLen := biosBlockCount,
      lutLen := 0x10000, ramPagesMapped := pages, lutWritesDone := writes,
      emitterWasReset := true }

/-- `const int MAX_BLOCK_SIZE = 30;` -/
def MAX_BLOCK_SIZE : Nat := 30

/-- How a compiled block ended: by a control-flow instruction plus its delay
slot, or forcibly at the size cap. -/
inductive BlockEnd
| branch
| forced
deriving DecidableEq

/-- Modelled from the spec: the body of `recompile` is not in this header
(only its declaration and the `MAX_BLOCK_SIZE = 30` constant are).  Per the
spec, the compiler keeps fetching instructions while fewer than
`MAX_BLOCK_SIZE` have been compiled; a control-flow instruction is compiled
together with its mandatory single delay-slot instruction and ends the
block, and reaching the cap without a control-flow instruction forcibly ends
it.  `isBranch i` says whether the i-th fetched instruction changes control
flow; `count` is how many instructions are already compiled.  The `fuel`
argument only drives structural recursion: with `fuel + count = MAX_BLOCK_SIZE`
it never reaches 0 before the cap check fires. -/
def compileBlockAux (isBranch : Nat → Bool) : Nat → Nat → BlockEnd × Nat
| 0, count => (BlockEnd.forced, count)
| fuel + 1, count =>
  if MAX_BLOCK_SIZE ≤ count then (BlockEnd.forced, count)
  else if isBranch count then (BlockEnd.branch, count + 2)
  else compileBlockAux isBranch fuel (count + 1)

/-- Modelled from the spec: a whole block compilation starting with zero
instructions compiled; returns how the block ended and how many guest
instructions it holds. -/
def compileBlock (isBranch : Nat → Bool) : BlockEnd × Nat :=
  compileBlockAux isBranch MAX_BLOCK_SIZE 0

/-- `noBranchIn isBranch lo len = true` iff none of the `len` instructions
at positions `lo, lo+1, ..., lo+len-1` is a control-flow instruction. -/
def noBranchIn (isBranch : Nat → Bool) : Nat → Nat → Bool
| _, 0 => true
| lo, len + 1 => !(isBranch lo) && noBranchIn isBranch (lo + 1) len

/-- Pointwise contents of the LUT after `n` iterations of the RAM mapping
loop: slots `page`, `page + 0x8000` and `page + 0xA000` hold the pointer to
RAM-block entry `page << 16` for every `page < n`, all other slots are
untouched. -/
theorem mapRamLoop_apply (lut0 : Nat → Option LUTPointer) (n : Nat)
    (hn : n ≤ 0x2000) (j : Nat) :
  mapRamLoop lut0 n j =
    if j < n then some ⟨BlockArray.ram, j <<< 16⟩
    else if 0x8000 ≤ j ∧ j < 0x8000 + n then some ⟨BlockArray.ram, (j - 0x8000) <<< 16⟩
    else if 0xA000 ≤ j ∧ j < 0xA000 + n then some ⟨BlockArray.ram, (j - 0xA000) <<< 16⟩
    else lut0 j := by
  induction n with
  | zero =>
    simp only [mapRamLoop]
    split_ifs <;> first | rfl | (exfalso; omega)
  | succ n ih =>
    simp only [mapRamLoop, lutWrite]
    rw [ih (by omega)]
    split_ifs <;>
      simp only [Option.some.injEq, LUTPointer.mk.injEq, Nat.shiftLeft_eq, true_and]
    all_goals omega

/-- Pointwise contents of the LUT after `n` iterations of the BIOS mapping
loop: slots `page + 0x1FC0`, `page + 0x9FC0` and `page + 0xBFC0` hold the
pointer to BIOS-block entry `page << 16` for every `page < n`, all other
slots are untouched. -/
theorem mapBiosLoop_apply (lut0 : Nat → Option LUTPointer) (n : Nat)
    (hn : n ≤ 0x2000) (j : Nat) :
  mapBiosLoop lut0 n j =
    if 0x1FC0 ≤ j ∧ j < 0x1FC0 + n then some ⟨BlockArray.bios, (j - 0x1FC0) <<< 16⟩
    else if 0x9FC0 ≤ j ∧ j < 0x9FC0 + n then some ⟨BlockArray.bios, (j - 0x9FC0) <<< 16⟩
    else if 0xBFC0 ≤ j ∧ j < 0xBFC0 + n then some ⟨BlockArray.bios, (j - 0xBFC0) <<< 16⟩
    else lut0 j := by
  induction n with
  | zero =>
    simp only [mapBiosLoop]
    split_ifs <;> first | rfl | (exfalso; omega)
  | succ n ih =>
    simp only [mapBiosLoop, lutWrite]
    rw [ih (by omega)]
    split_ifs <;>
      simp only [Option.some.injEq, LUTPointer.mk.injEq, Nat.shiftLeft_eq, true_and]
    all_goals omega

/-- `ramPages` is 0x80 with the expansion and 0x20 without, so at most 0x80. -/
theorem ramPages_le (e : Bool) : ramPages e ≤ 0x80 := by
  cases e <;> decide

/-- Pointwise contents of `m_recompilerLUT` after `Init`: the six mapped
windows and their stored pointers, null everywhere else. -/
theorem initLUT_apply (e : Bool) (j : Nat) :
  initLUT e j =
    if 0x1FC0 ≤ j ∧ j < 0x1FC0 + 8 then some ⟨BlockArray.bios, (j - 0x1FC0) <<< 16⟩
    else if 0x9FC0 ≤ j ∧ j < 0x9FC0 + 8 then some ⟨BlockArray.bios, (j - 0x9FC0) <<< 16⟩
    else if 0xBFC0 ≤ j ∧ j < 0xBFC0 + 8 then some ⟨BlockArray.bios, (j - 0xBFC0) <<< 16⟩
    else if j < ramPages e then some ⟨BlockArray.ram, j <<< 16⟩
    else if 0x8000 ≤ j ∧ j < 0x8000 + ramPages e then some ⟨BlockArray.ram, (j - 0x8000) <<< 16⟩
    else if 0xA000 ≤ j ∧ j < 0xA000 + ramPages e then some ⟨BlockArray.ram, (j - 0xA000) <<< 16⟩
    else none := by
  have hp : ramPages e ≤ 0x80 := ramPages_le e
  unfold initLUT
  rw [mapBiosLoop_apply _ 8 (by omega) j, mapRamLoop_apply _ (ramPages e) (by omega) j]

/-- Claim C1 (code bug): not every non-null LUT entry stays in bounds.  The
stored pointer for RAM page 8 (without the expansion) addresses RAM-block
entry `8 << 16 = 0x80000`, which is not below `m_ramSize/4 = 0x80000`; BIOS
page 2 addresses entry `0x20000`, not below `0x80000/4 = 0x20000`; with the
expansion RAM page 0x20 addresses entry `0x200000`, not below
`0x800000/4 = 0x200000`.  The entry stride per 64KB page should be
`0x10000/4` entries, not `0x10000`. -/
theorem c1_lut_entry_out_of_bounds :
  initLUT false 8 = some ⟨BlockArray.ram, 8 <<< 16⟩ ∧
  ¬(8 <<< 16 < ramBlockCount false) ∧
  initLUT false (2 + 0x1FC0) = some ⟨BlockArray.bios, 2 <<< 16⟩ ∧
  ¬(2 <<< 16 < biosBlockCount) ∧
  initLUT true (0x20 + 0xA000) = some ⟨BlockArray.ram, 0x20 <<< 16⟩ ∧
  ¬(0x20 <<< 16 < ramBlockCount true) := by
  decide

/-- Claim C2: `isPcValid addr` is true exactly when the top 16 bits of
`addr` select a mapped page: a RAM page `p < ramPages` in the 0x0000, 0x8000
or 0xA000 region, or a BIOS page `p < 8` in the 0x1FC0, 0x9FC0 or 0xBFC0
region. -/
theorem c2_isPcValid_iff_mapped (e : Bool) (addr : Nat) (h : addr < 2 ^ 32) :
  isPcValid e addr = true ↔
    ((∃ p, p < ramPages e ∧
        (addr >>> 16 = p ∨ addr >>> 16 = p + 0x8000 ∨ addr >>> 16 = p + 0xA000)) ∨
     (∃ p, p < 8 ∧
        (addr >>> 16 = p + 0x1FC0 ∨ addr >>> 16 = p + 0x9FC0 ∨
          addr >>> 16 = p + 0xBFC0))) := by
  have hp : ramPages e ≤ 0x80 := ramPages_le e
  unfold isPcValid
  rw [initLUT_apply]
  split_ifs with h1 h2 h3 h4 h5 h6
  · exact iff_of_true rfl (Or.inr ⟨addr >>> 16 - 0x1FC0, by omega, Or.inl (by omega)⟩)
  · exact iff_of_true rfl (Or.inr ⟨addr >>> 16 - 0x9FC0, by omega, Or.inr (Or.inl (by omega))⟩)
  · exact iff_of_true rfl (Or.inr ⟨addr >>> 16 - 0xBFC0, by omega, Or.inr (Or.inr (by omega))⟩)
  · exact iff_of_true rfl (Or.inl ⟨addr >>> 16, by omega, Or.inl rfl⟩)
  · exact iff_of_true rfl (Or.inl ⟨addr >>> 16 - 0x8000, by omega, Or.inr (Or.inl (by omega))⟩)
  · exact iff_of_true rfl (Or.inl ⟨addr >>> 16 - 0xA000, by omega, Or.inr (Or.inr (by omega))⟩)
  · refine iff_of_false (by simp) ?_
    rintro (⟨p, hplt, hp1 | hp1 | hp1⟩ | ⟨p, hplt, hp1 | hp1 | hp1⟩) <;> omega

/-- Claim C2 witness: address 0xBFC00180 (a BIOS entry point) is accepted by
`isPcValid` and its page 0xBFC0 is among the mapped pages. -/
theorem c2_isPcValid_iff_mapped_witness :
  0xBFC00180 < 2 ^ 32 ∧
  (isPcValid false 0xBFC00180 = true ↔
    ((∃ p, p < ramPages false ∧
        (0xBFC00180 >>> 16 = p ∨ 0xBFC00180 >>> 16 = p + 0x8000 ∨
          0xBFC00180 >>> 16 = p + 0xA000)) ∨
     (∃ p, p < 8 ∧
        (0xBFC00180 >>> 16 = p + 0x1FC0 ∨ 0xBFC00180 >>> 16 = p + 0x9FC0 ∨
          0xBFC00180 >>> 16 = p + 0xBFC0)))) :=
  ⟨by decide, c2_isPcValid_iff_mapped false 0xBFC00180 (by decide)⟩

/-- A mapped RAM page read through the 0x0000 window. -/
theorem initLUT_ram0 (e : Bool) (p : Nat) (hp : p < ramPages e) :
  initLUT e p = some ⟨BlockArray.ram, p <<< 16⟩ := by
  have hp80 : ramPages e ≤ 0x80 := ramPages_le e
  rw [initLUT_apply, if_neg (by omega), if_neg (by omega), if_neg (by omega),
    if_pos (by omega)]

/-- A mapped RAM page read through the 0x8000 window. -/
theorem initLUT_ram8 (e : Bool) (p : Nat) (hp : p < ramPages e) :
  initLUT e (p + 0x8000) = some ⟨BlockArray.ram, p <<< 16⟩ := by
  have hp80 : ramPages e ≤ 0x80 := ramPages_le e
  rw [initLUT_apply, if_neg (by omega), if_neg (by omega), if_neg (by omega),
    if_neg (by omega), if_pos (by omega)]
  rw [Nat.add_sub_cancel]

/-- A mapped RAM page read through the 0xA000 window. -/
theorem initLUT_ramA (e : Bool) (p : Nat) (hp : p < ramPages e) :
  initLUT e (p + 0xA000) = some ⟨BlockArray.ram, p <<< 16⟩ := by
  have hp80 : ramPages e ≤ 0x80 := ramPages_le e
  rw [initLUT_apply, if_neg (by omega), if_neg (by omega), if_neg (by omega),
    if_neg (by omega), if_neg (by omega), if_pos (by omega)]
  rw [Nat.add_sub_cancel]

/-- A mapped BIOS page read through the 0x1FC0 window. -/
theorem initLUT_bios1 (e : Bool) (q : Nat) (hq : q < 8) :
  initLUT e (q + 0x1FC0) = some ⟨BlockArray.bios, q <<< 16⟩ := by
  rw [initLUT_apply, if_pos (by omega), Nat.add_sub_cancel]

/-- A mapped BIOS page read through the 0x9FC0 window. -/
theorem initLUT_bios9 (e : Bool) (q : Nat) (hq : q < 8) :
  initLUT e (q + 0x9FC0) = some ⟨BlockArray.bios, q <<< 16⟩ := by
  rw [initLUT_apply, if_neg (by omega), if_pos (by omega), Nat.add_sub_cancel]

/-- A mapped BIOS page read through the 0xBFC0 window. -/
theorem initLUT_biosB (e : Bool) (q : Nat) (hq : q < 8) :
  initLUT e (q + 0xBFC0) = some ⟨BlockArray.bios, q <<< 16⟩ := by
  rw [initLUT_apply, if_neg (by omega), if_neg (by omega), if_pos (by omega),
    Nat.add_sub_cancel]

/-- Claim C3: after `Init` (and `Reset`, whose final state is `Init`'s) the
three views of every mapped RAM page share one pointer, and likewise the
three views of every BIOS page. -/
theorem c3_lut_aliasing (e : Bool) (p q : Nat) (hp : p < ramPages e) (hq : q < 8) :
  initLUT e p = initLUT e (p + 0x8000) ∧
  initLUT e (p + 0x8000) = initLUT e (p + 0xA000) ∧
  initLUT e (q + 0x1FC0) = initLUT e (q + 0x9FC0) ∧
  initLUT e (q + 0x9FC0) = initLUT e (q + 0xBFC0) ∧
  resetLUT e p = initLUT e p ∧
  resetLUT e (q + 0x1FC0) = initLUT e (q + 0x1FC0) :=
  ⟨(initLUT_ram0 e p hp).trans (initLUT_ram8 e p hp).symm,
   (initLUT_ram8 e p hp).trans (initLUT_ramA e p hp).symm,
   (initLUT_bios1 e q hq).trans (initLUT_bios9 e q hq).symm,
   (initLUT_bios9 e q hq).trans (initLUT_biosB e q hq).symm,
   rfl, rfl⟩

/-- Claim C3 witness: RAM page 3 and BIOS page 5 (without the expansion). -/
theorem c3_lut_aliasing_witness :
  (3 < ramPages false ∧ 5 < 8) ∧
  (initLUT false 3 = initLUT false (3 + 0x8000) ∧
   initLUT false (3 + 0x8000) = initLUT false (3 + 0xA000) ∧
   initLUT false (5 + 0x1FC0) = initLUT false (5 + 0x9FC0) ∧
   initLUT false (5 + 0x9FC0) = initLUT false (5 + 0xBFC0) ∧
   resetLUT false 3 = initLUT false 3 ∧
   resetLUT false (5 + 0x1FC0) = initLUT false (5 + 0x1FC0)) :=
  ⟨by decide, c3_lut_aliasing false 3 5 (by decide) (by decide)⟩

/-- Claim C5: for every per-block `Register` record and every value `v`,
`markConst(v)` leaves the record with `state = Constant`, cached value
`val = v` and `isAllocated = false`, and `isConst()` then returns `true`. -/
theorem c5_markConst_fields (r : Register) (v : Nat) :
  (r.markConst v).state = RegState.Constant ∧ (r.markConst v).val = v ∧
  (r.markConst v).isAllocated = false ∧ (r.markConst v).isConst = true :=
  ⟨rfl, rfl, rfl, rfl⟩

/-- Claim C10: `markConst(v)` also clears the writeback flag via
`unallocate`: a register marked dirty (`writeback = true` through
`setWriteback`) and then marked constant has `writeback = false` (and is no
longer allocated), so no subsequent flush writes its stale host value back. -/
theorem c10_markConst_clears_writeback (r : Register) (v : Nat) :
  ((r.setWriteback true).markConst v).writeback = false ∧
  ((r.setWriteback true).markConst v).isAllocated = false :=
  ⟨rfl, rfl⟩

/-- Claim C6 (code bug): `Clear` is an unconditional abort.  At the concrete
call `Clear(0x80030000, 4)` the code prints the diagnostic and reaches
`abort()`, terminating the process, contrary to the claimed contract. -/
theorem c6_clear_aborts :
  (Clear 0x80030000 4).abortsProcess = true ∧
  (Clear 0x80030000 4).printedCantClear = true :=
  ⟨rfl, rfl⟩

/-- Claim C8: `Init` sets the RAM size to 0x800000 with the 8MB expansion and
0x200000 without, allocates `m_ramSize/4` RAM block entries and `0x80000/4`
BIOS block entries, and maps `m_ramSize >> 16` RAM pages (0x80 with the
expansion, 0x20 without). -/
theorem c8_init_sizes (e lutOk ramOk biosOk genOk : Bool) :
  (InitModel e lutOk ramOk biosOk genOk).ramSizeSet = (if e then 0x800000 else 0x200000) ∧
  (InitModel e lutOk ramOk biosOk genOk).ramBlocksLen = ramSize e / 4 ∧
  (InitModel e lutOk ramOk biosOk genOk).biosBlocksLen = 0x80000 / 4 ∧
  (InitModel e lutOk ramOk biosOk genOk).ramPagesMapped = ramSize e >>> 16 ∧
  (InitModel e lutOk ramOk biosOk genOk).ramPagesMapped = (if e then 0x80 else 0x20) := by
  cases e <;> cases lutOk <;> cases ramOk <;> cases biosOk <;> cases genOk <;> decide

/-- Claim C7 counterexample: with the LUT allocation failed (null) and every
other allocation fine, `Init` does post the message and return `false`, but
it is NOT true that it performs no further initialization first: both
LUT-mapping loops have already executed (120 LUT stores, here through a null
top-level table) before the allocation check runs. -/
theorem c7_init_counterexample :
  (InitModel false false true true true).ret = false ∧
  (InitModel false false true true true).messagePosted = true ∧
  (InitModel false false true true true).lutWritesDone ≠ 0 := by
  decide

/-- Claim C7 as amended: `Init` returns `true` exactly when all four
allocations (LUT, RAM blocks, BIOS blocks, emitter buffer) are non-null; on
any failure it posts the message and returns `false` without resetting the
emitter — but the page-mapping loops always run before the allocation check,
performing `3 * ramPages + 24` LUT stores regardless of failure. -/
theorem c7_init_amended (e lutOk ramOk biosOk genOk : Bool) :
  (InitModel e lutOk ramOk biosOk genOk).ret = (lutOk && ramOk && biosOk && genOk) ∧
  (InitModel e lutOk ramOk biosOk genOk).messagePosted = !(lutOk && ramOk && biosOk && genOk) ∧
  (InitModel e lutOk ramOk biosOk genOk).emitterWasReset = (lutOk && ramOk && biosOk && genOk) ∧
  (InitModel e lutOk ramOk biosOk genOk).lutWritesDone = 3 * ramPages e + 24 := by
  cases e <;> cases lutOk <;> cases ramOk <;> cases biosOk <;> cases genOk <;> decide

/-- Claim C4: issuing a delayed load to register `index` while the other slot
(`m_currentDelayedLoad ^ 1`) holds a load to the same register deactivates
that other slot, and after any issue the two slots never both hold pending
loads to the same register. -/
theorem c4_delayed_load_cancel (s : DelayState) (index value : Nat)
    (h : s.currentDelayedLoad < 2) :
  ((s.slot (s.currentDelayedLoad ^^^ 1)).index = index →
      ((maybeCancelDelayedLoad s index).slot (s.currentDelayedLoad ^^^ 1)).active = false) ∧
  noDupPending (issueDelayedLoad s index value) := by
  obtain ⟨a, b, c⟩ := s
  have hc : c = 0 ∨ c = 1 := by
    simp only [DelayState.currentDelayedLoad] at h
    omega
  rcases hc with hc | hc <;> subst hc
  · -- current = 0: the other slot is slot 1, record b
    by_cases hbi : b.index = index
    · refine ⟨fun _ => ?_, ?_⟩
      · simp [maybeCancelDelayedLoad, DelayState.slot, DelayState.setSlot, hbi]
      · simp [noDupPending, issueDelayedLoad, maybeCancelDelayedLoad,
          DelayState.slot, DelayState.setSlot, hbi]
    · refine ⟨fun hidx => absurd (by simpa [DelayState.slot] using hidx) hbi, ?_⟩
      simp [noDupPending, issueDelayedLoad, maybeCancelDelayedLoad,
        DelayState.slot, DelayState.setSlot, hbi]
      exact fun _ h3 => hbi h3.symm
  · -- current = 1: the other slot is slot 0, record a
    by_cases hai : a.index = index
    · refine ⟨fun _ => ?_, ?_⟩
      · simp [maybeCancelDelayedLoad, DelayState.slot, DelayState.setSlot, hai]
      · simp [noDupPending, issueDelayedLoad, maybeCancelDelayedLoad,
          DelayState.slot, DelayState.setSlot, hai]
    · refine ⟨fun hidx => absurd (by simpa [DelayState.slot] using hidx) hai, ?_⟩
      simp [noDupPending, issueDelayedLoad, maybeCancelDelayedLoad,
        DelayState.slot, DelayState.setSlot, hai]

/-- Claim C4 witness: a concrete state whose two slots both hold pending
loads to register 5 with `m_currentDelayedLoad = 0`; issuing a new load to
register 5 cancels the other slot and no duplicate pending pair remains. -/
theorem c4_delayed_load_cancel_witness :
  (⟨⟨5, 7, true⟩, ⟨5, 9, true⟩, 0⟩ : DelayState).currentDelayedLoad < 2 ∧
  ((((⟨⟨5, 7, true⟩, ⟨5, 9, true⟩, 0⟩ : DelayState).slot
        ((⟨⟨5, 7, true⟩, ⟨5, 9, true⟩, 0⟩ : DelayState).currentDelayedLoad ^^^ 1)).index = 5 →
      ((maybeCancelDelayedLoad ⟨⟨5, 7, true⟩, ⟨5, 9, true⟩, 0⟩ 5).slot
        ((⟨⟨5, 7, true⟩, ⟨5, 9, true⟩, 0⟩ : DelayState).currentDelayedLoad ^^^ 1)).active = false) ∧
    noDupPending (issueDelayedLoad ⟨⟨5, 7, true⟩, ⟨5, 9, true⟩, 0⟩ 5 3)) :=
  ⟨by decide, c4_delayed_load_cancel ⟨⟨5, 7, true⟩, ⟨5, 9, true⟩, 0⟩ 5 3 (by decide)⟩

/-- Every run of the modelled compile loop with `fuel + count = MAX_BLOCK_SIZE`
either is forcibly terminated at exactly `MAX_BLOCK_SIZE` compiled
instructions with no control-flow instruction among the remaining fetches, or
ends at a control-flow instruction plus its delay slot, at most one past the
cap, with no earlier control-flow instruction in the remaining range. -/
theorem compileBlockAux_spec (isBranch : Nat → Bool) :
  ∀ fuel count, fuel + count = MAX_BLOCK_SIZE →
    (((compileBlockAux isBranch fuel count).1 = BlockEnd.forced ∧
      (compileBlockAux isBranch fuel count).2 = MAX_BLOCK_SIZE ∧
      noBranchIn isBranch count fuel = true) ∨
     ((compileBlockAux isBranch fuel count).1 = BlockEnd.branch ∧
      count + 2 ≤ (compileBlockAux isBranch fuel count).2 ∧
      (compileBlockAux isBranch fuel count).2 ≤ MAX_BLOCK_SIZE + 1 ∧
      isBranch ((compileBlockAux isBranch fuel count).2 - 2) = true ∧
      noBranchIn isBranch count
        ((compileBlockAux isBranch fuel count).2 - 2 - count) = true)) := by
  intro fuel
  induction fuel with
  | zero =>
    intro count h
    left
    exact ⟨rfl, by simpa [compileBlockAux] using by omega, rfl⟩
  | succ fuel ih =>
    intro count h
    simp only [compileBlockAux]
    rw [if_neg (by omega)]
    by_cases hb : isBranch count = true
    · rw [if_pos hb]
      right
      refine ⟨rfl, Nat.le_refl _, by omega, by simpa using hb, ?_⟩
      simp [noBranchIn]
    · rw [if_neg hb]
      have hbf : isBranch count = false := by
        simpa using hb
      rcases ih (count + 1) (by omega) with ⟨h1, h2, h3⟩ | ⟨h1, h2, h3, h4, h5⟩
      · left
        refine ⟨h1, h2, ?_⟩
        show (!(isBranch count) && noBranchIn isBranch (count + 1) fuel) = true
        simp [hbf, h3]
      · right
        refine ⟨h1, by omega, h3, h4, ?_⟩
        have harith :
            (compileBlockAux isBranch fuel (count + 1)).2 - 2 - count =
              ((compileBlockAux isBranch fuel (count + 1)).2 - 2 - (count + 1)) + 1 := by
          omega
        rw [harith]
        show (!(isBranch count) &&
          noBranchIn isBranch (count + 1)
            ((compileBlockAux isBranch fuel (count + 1)).2 - 2 - (count + 1))) = true
        simp [hbf, h5]

/-- Claim C9 counterexample: with a control-flow instruction fetched as the
30th instruction of the block (position 29), the compiler still compiles its
mandatory delay slot, so the block holds 31 guest instructions, more than the
claimed 30-instruction bound. -/
theorem c9_block_cap_counterexample :
  (compileBlock (fun i => decide (i = 29))).1 = BlockEnd.branch ∧
  (compileBlock (fun i => decide (i = 29))).2 = 31 ∧
  ¬((compileBlock (fun i => decide (i = 29))).2 ≤ 30) := by
  decide

/-- Claim C9 as amended: a block never holds more than 31 guest
instructions.  It either is forcibly terminated at exactly `MAX_BLOCK_SIZE`
(30) instructions, none of which is a control-flow instruction, or it ends
with exactly one control-flow instruction followed by exactly one delay-slot
instruction (no earlier instruction of the block changes control flow); in
the latter case it exceeds 30 only when the control-flow instruction is
itself the 30th fetched instruction. -/
theorem c9_block_cap_amended (isBranch : Nat → Bool) :
  (compileBlock isBranch).2 ≤ MAX_BLOCK_SIZE + 1 ∧
  (((compileBlock isBranch).1 = BlockEnd.forced ∧
    (compileBlock isBranch).2 = MAX_BLOCK_SIZE ∧
    noBranchIn isBranch 0 MAX_BLOCK_SIZE = true) ∨
   ((compileBlock isBranch).1 = BlockEnd.branch ∧
    2 ≤ (compileBlock isBranch).2 ∧
    (compileBlock isBranch).2 ≤ MAX_BLOCK_SIZE + 1 ∧
    isBranch ((compileBlock isBranch).2 - 2) = true ∧
    noBranchIn isBranch 0 ((compileBlock isBranch).2 - 2) = true)) := by
  have h := compileBlockAux_spec isBranch MAX_BLOCK_SIZE 0 (by omega)
  unfold compileBlock
  rcases h with ⟨h1, h2, h3⟩ | ⟨h1, h2, h3, h4, h5⟩
  · exact ⟨by omega, Or.inl ⟨h1, h2, h3⟩⟩
  · refine ⟨by omega, Or.inr ⟨h1, by omega, h3, h4, ?_⟩⟩
    simpa using h5

end DynaRec
